import Mathlib

set_option maxHeartbeats 1600000

/-!
Shallow embedding of the Gemini-backend in-memory rate-limiting and caching
services (`utils/rate_limit_service.py`) and the OTP verification service
(`utils/otp_service.py`).

Python dictionaries are modelled as association lists over `String` keys with
unique keys (every mutation in the source goes through `m[k] = v` / `del m[k]`,
which preserve key uniqueness), wall-clock time (`time.time()` respectively
`datetime.utcnow()`) as integer seconds, and the SQLAlchemy `otp_verifications`
table as a list of records in insertion order (an un-ordered SQLAlchemy
`.first()` is modelled as the first matching row in insertion order, and an
in-place ORM mutation as replacing the first matching row).
-/

/-- Association-list lookup, modelling a Python `dict` read `m[k]`. -/
def lookupA {β : Type} : List (String × β) → String → Option β
  | [], _ => none
  | (k, v) :: rest, key => if k = key then some v else lookupA rest key

/-- Association-list store, modelling a Python `dict` write `m[k] = v`. -/
def storeA {β : Type} : List (String × β) → String → β → List (String × β)
  | [], key, val => [(key, val)]
  | (k, v) :: rest, key, val =>
    if k = key then (key, val) :: rest else (k, v) :: storeA rest key val

/-- Association-list delete, modelling Python `del m[k]`. -/
def eraseA {β : Type} : List (String × β) → String → List (String × β)
  | [], _ => []
  | (k, v) :: rest, key => if k = key then rest else (k, v) :: eraseA rest key

/-- The keys of an association list. -/
def keysA {β : Type} (m : List (String × β)) : List String := m.map Prod.fst

/-- State of `InMemoryRateLimitService`: the `_requests` dict mapping each
identifier to its list of request timestamps, and `_last_cleanup`. -/
structure InMemoryRateLimitService where
  requests : List (String × List Int)
  last_cleanup : Int
deriving DecidableEq

/-- `_cleanup_interval = 300` (5 minutes). -/
def cleanup_interval : Int := 300

/-- The dict rewrite performed by `InMemoryRateLimitService._cleanup_expired`
once the interval gate has passed: every identifier's timestamp list is
filtered by `ts > cutoff` and identifiers whose list became empty are
deleted. -/
def clean_requests (cut : Int) (m : List (String × List Int)) :
    List (String × List Int) :=
  (m.map (fun kv => (kv.1, kv.2.filter (fun ts => decide (cut < ts))))).filter
    (fun kv => !kv.2.isEmpty)

/-- `InMemoryRateLimitService._cleanup_expired`, with the module-level
environment constant `RATE_LIMIT_WINDOW` passed explicitly. -/
def rl_cleanup_expired (rate_limit_window : Int) (now : Int)
    (svc : InMemoryRateLimitService) : InMemoryRateLimitService :=
  if now - svc.last_cleanup < cleanup_interval then svc
  else
    { requests := clean_requests (now - rate_limit_window) svc.requests,
      last_cleanup := now }

/-- `InMemoryRateLimitService.is_rate_limited`.  Returns the reported
limited-flag together with the updated service state.  The `try/except`
fail-open guard is unreachable in the embedding (every step is total). -/
def is_rate_limited (rate_limit_window : Int) (svc : InMemoryRateLimitService)
    (identifier : String) (limit : Int) (window : Int) (now : Int) :
    Bool × InMemoryRateLimitService :=
  let cutoff := now - window
  let svc1 := rl_cleanup_expired rate_limit_window now svc
  let cur := (lookupA svc1.requests identifier).getD []
  let cur := cur.filter (fun ts => decide (cutoff < ts))
  if limit ≤ (cur.length : Int) then
    (true, { svc1 with requests := storeA svc1.requests identifier cur })
  else
    (false, { svc1 with requests := storeA svc1.requests identifier (cur ++ [now]) })

/-- Python `min` over a nonempty list, written as a fold over head and tail. -/
def list_min : Int → List Int → Int
  | x, [] => x
  | x, y :: ys => list_min (min x y) ys

/-- `InMemoryRateLimitService.get_rate_limit_info`.  Returns
`(current, remaining_time)` together with the (unchanged) service state. -/
def get_rate_limit_info (svc : InMemoryRateLimitService) (identifier : String)
    (window : Int) (now : Int) : (Int × Int) × InMemoryRateLimitService :=
  match lookupA svc.requests identifier with
  | none => ((0, 0), svc)
  | some l =>
    let valid := l.filter (fun ts => decide (now - window < ts))
    let remaining : Int :=
      match valid with
      | [] => 0
      | x :: xs => max 0 (window - (now - list_min x xs))
    (((valid.length : Int), remaining), svc)

/-- A sequence of `is_rate_limited` calls for one identifier with fixed
`limit` and `window`, one call per element of the time list; returns the
list of `(call time, limited?)` outcomes and the final state. -/
def run_calls (rate_limit_window : Int) (identifier : String)
    (limit window : Int) :
    InMemoryRateLimitService → List Int →
      List (Int × Bool) × InMemoryRateLimitService
  | svc, [] => ([], svc)
  | svc, t :: ts =>
    let step := is_rate_limited rate_limit_window svc identifier limit window t
    let rest := run_calls rate_limit_window identifier limit window step.2 ts
    ((t, step.1) :: rest.1, rest.2)

/-- The timestamp list the service holds for one identifier (empty when the
identifier is absent, as in `self._requests.get(identifier, [])`). -/
def proj_requests (svc : InMemoryRateLimitService) (identifier : String) :
    List Int :=
  (lookupA svc.requests identifier).getD []

/-- The per-identifier sliding-window step of `is_rate_limited` in isolation:
drop timestamps at or below `now - window`, report limited without recording
when at least `limit` remain, otherwise record `now`. -/
def sliding_step (l : List Int) (limit window now : Int) : Bool × List Int :=
  let cur := l.filter (fun ts => decide (now - window < ts))
  if limit ≤ (cur.length : Int) then (true, cur) else (false, cur ++ [now])

/-- Iterated `sliding_step` over a list of call times. -/
def sliding_run (limit window : Int) :
    List Int → List Int → List (Int × Bool) × List Int
  | l, [] => ([], l)
  | l, t :: ts =>
    let step := sliding_step l limit window t
    let rest := sliding_run limit window step.2 ts
    ((t, step.1) :: rest.1, rest.2)

/-- The timestamps for `identifier` that survive the per-call drop of
`is_rate_limited` at time `now` with the given `window`. -/
def kept_timestamps (svc : InMemoryRateLimitService) (identifier : String)
    (window now : Int) : List Int :=
  (proj_requests svc identifier).filter (fun ts => decide (now - window < ts))

theorem keysA_cons {β : Type} (k : String) (v : β) (rest : List (String × β)) :
    keysA ((k, v) :: rest) = k :: keysA rest := rfl

theorem lookupA_storeA_self {β : Type} (m : List (String × β)) (k : String)
    (v : β) : lookupA (storeA m k v) k = some v := by
  induction m with
  | nil => simp [storeA, lookupA]
  | cons kv rest ih =>
    obtain ⟨k0, v0⟩ := kv
    by_cases h : k0 = k
    · simp [storeA, h, lookupA]
    · simp [storeA, h, lookupA, ih]

theorem mem_keysA_storeA {β : Type} (m : List (String × β)) (k k' : String)
    (v : β) : k' ∈ keysA (storeA m k v) ↔ k' ∈ keysA m ∨ k' = k := by
  induction m with
  | nil => simp [storeA, keysA]
  | cons kv rest ih =>
    obtain ⟨k0, v0⟩ := kv
    by_cases h : k0 = k
    · subst h
      rw [storeA, if_pos rfl, keysA_cons, keysA_cons]
      simp [List.mem_cons]
      tauto
    · rw [storeA, if_neg h, keysA_cons, keysA_cons]
      simp only [List.mem_cons, ih]
      tauto

theorem nodup_keysA_storeA {β : Type} (m : List (String × β)) (k : String)
    (v : β) (h : (keysA m).Nodup) : (keysA (storeA m k v)).Nodup := by
  induction m with
  | nil => simp [storeA, keysA]
  | cons kv rest ih =>
    obtain ⟨k0, v0⟩ := kv
    rw [keysA_cons, List.nodup_cons] at h
    by_cases hk : k0 = k
    · subst hk
      rw [storeA, if_pos rfl, keysA_cons, List.nodup_cons]
      exact ⟨h.1, h.2⟩
    · rw [storeA, if_neg hk, keysA_cons, List.nodup_cons]
      refine ⟨?_, ih h.2⟩
      intro hmem
      rcases (mem_keysA_storeA rest k k0 v).mp hmem with h1 | h1
      · exact h.1 h1
      · exact hk h1

theorem lookupA_eq_none_of_not_mem {β : Type} (m : List (String × β))
    (k : String) (h : k ∉ keysA m) : lookupA m k = none := by
  induction m with
  | nil => rfl
  | cons kv rest ih =>
    obtain ⟨k0, v0⟩ := kv
    rw [keysA_cons, List.mem_cons] at h
    push_neg at h
    have hne : ¬(k0 = k) := fun hh => h.1 hh.symm
    rw [lookupA, if_neg hne]
    exact ih h.2

theorem keysA_clean_sublist (cut : Int) (m : List (String × List Int)) :
    List.Sublist (keysA (clean_requests cut m)) (keysA m) := by
  have h := ((List.filter_sublist
      (p := fun kv : String × List Int => !kv.2.isEmpty)
      (m.map (fun kv => (kv.1, kv.2.filter (fun ts => decide (cut < ts))))))).map
    Prod.fst
  simpa [clean_requests, keysA, List.map_map, Function.comp] using h

theorem nodup_keysA_clean (cut : Int) (m : List (String × List Int))
    (h : (keysA m).Nodup) : (keysA (clean_requests cut m)).Nodup :=
  List.Nodup.sublist (keysA_clean_sublist cut m) h

theorem clean_requests_cons (cut : Int) (k0 : String) (l0 : List Int)
    (rest : List (String × List Int)) :
    clean_requests cut ((k0, l0) :: rest) =
      if (l0.filter (fun ts => decide (cut < ts))).isEmpty then
        clean_requests cut rest
      else
        (k0, l0.filter (fun ts => decide (cut < ts))) :: clean_requests cut rest := by
  by_cases he : (l0.filter (fun ts => decide (cut < ts))).isEmpty <;>
    simp [clean_requests, List.filter_cons, he]

theorem lookupA_clean (cut : Int) (m : List (String × List Int)) (k : String)
    (hnd : (keysA m).Nodup) :
    lookupA (clean_requests cut m) k =
      match lookupA m k with
      | none => none
      | some l =>
        if (l.filter (fun ts => decide (cut < ts))).isEmpty then none
        else some (l.filter (fun ts => decide (cut < ts))) := by
  induction m with
  | nil => rfl
  | cons kv rest ih =>
    obtain ⟨k0, l0⟩ := kv
    rw [keysA_cons, List.nodup_cons] at hnd
    rw [clean_requests_cons]
    by_cases hk : k0 = k
    · subst hk
      by_cases he : (l0.filter (fun ts => decide (cut < ts))).isEmpty
      · rw [if_pos he]
        have hnone : lookupA (clean_requests cut rest) k0 = none :=
          lookupA_eq_none_of_not_mem _ _
            (fun hmem => hnd.1 ((keysA_clean_sublist cut rest).subset hmem))
        simp [lookupA, hnone, he]
      · rw [if_neg he]
        simp [lookupA, he]
    · by_cases he : (l0.filter (fun ts => decide (cut < ts))).isEmpty
      · rw [if_pos he]
        simp only [lookupA, if_neg hk]
        exact ih hnd.2
      · rw [if_neg he]
        simp only [lookupA, if_neg hk]
        exact ih hnd.2

theorem proj_clean (cut : Int) (m : List (String × List Int)) (k : String)
    (hnd : (keysA m).Nodup) :
    (lookupA (clean_requests cut m) k).getD [] =
      ((lookupA m k).getD []).filter (fun ts => decide (cut < ts)) := by
  rw [lookupA_clean cut m k hnd]
  cases h : lookupA m k with
  | none => simp
  | some l =>
    by_cases he : (l.filter (fun ts => decide (cut < ts))).isEmpty
    · rw [List.isEmpty_iff] at he
      simp [he]
    · simp [he]

theorem proj_rl_cleanup (rlW now : Int) (svc : InMemoryRateLimitService)
    (id : String) (hnd : (keysA svc.requests).Nodup) :
    proj_requests (rl_cleanup_expired rlW now svc) id =
      if now - svc.last_cleanup < cleanup_interval then proj_requests svc id
      else (proj_requests svc id).filter (fun ts => decide (now - rlW < ts)) := by
  unfold rl_cleanup_expired proj_requests
  by_cases hg : now - svc.last_cleanup < cleanup_interval
  · simp [hg]
  · simp [hg, proj_clean _ _ _ hnd]

theorem nodup_rl_cleanup (rlW now : Int) (svc : InMemoryRateLimitService)
    (hnd : (keysA svc.requests).Nodup) :
    (keysA (rl_cleanup_expired rlW now svc).requests).Nodup := by
  unfold rl_cleanup_expired
  by_cases hg : now - svc.last_cleanup < cleanup_interval
  · simpa [hg] using hnd
  · simpa [hg] using nodup_keysA_clean _ _ hnd

theorem filter_window_of_filter_rlw (rlW window now : Int) (hw : window ≤ rlW)
    (l : List Int) :
    (l.filter (fun ts => decide (now - rlW < ts))).filter
        (fun ts => decide (now - window < ts)) =
      l.filter (fun ts => decide (now - window < ts)) := by
  rw [List.filter_filter]
  apply List.filter_congr
  intro a _
  by_cases hca : now - window < a
  · have h2 : now - rlW < a := by omega
    simp [hca, h2]
  · simp [hca]

theorem cur_eq_kept (rlW : Int) (svc : InMemoryRateLimitService) (id : String)
    (window now : Int) (hnd : (keysA svc.requests).Nodup) (hw : window ≤ rlW) :
    ((lookupA (rl_cleanup_expired rlW now svc).requests id).getD []).filter
        (fun ts => decide (now - window < ts)) =
      (proj_requests svc id).filter (fun ts => decide (now - window < ts)) := by
  have hcl := proj_rl_cleanup rlW now svc id hnd
  rw [show (lookupA (rl_cleanup_expired rlW now svc).requests id).getD [] =
    proj_requests (rl_cleanup_expired rlW now svc) id from rfl, hcl]
  by_cases hg : now - svc.last_cleanup < cleanup_interval
  · simp [hg]
  · simp [hg, filter_window_of_filter_rlw rlW window now hw]

theorem is_rate_limited_proj (rlW : Int) (svc : InMemoryRateLimitService)
    (id : String) (limit window now : Int)
    (hnd : (keysA svc.requests).Nodup) (hw : window ≤ rlW) :
    (is_rate_limited rlW svc id limit window now).1 =
        (sliding_step (proj_requests svc id) limit window now).1 ∧
      proj_requests (is_rate_limited rlW svc id limit window now).2 id =
        (sliding_step (proj_requests svc id) limit window now).2 ∧
      (keysA (is_rate_limited rlW svc id limit window now).2.requests).Nodup := by
  have hcur := cur_eq_kept rlW svc id window now hnd hw
  have hnd1 := nodup_rl_cleanup rlW now svc hnd
  by_cases hle : limit ≤
      ((((proj_requests svc id).filter
        (fun ts => decide (now - window < ts))).length : Int))
  · refine ⟨?_, ?_, ?_⟩
    · simp only [is_rate_limited, sliding_step, hcur]
      simp [hle]
    · simp only [is_rate_limited, sliding_step, hcur]
      simp only [hle, if_pos]
      unfold proj_requests
      simp [lookupA_storeA_self]
    · simp only [is_rate_limited, hcur]
      simp [hle, nodup_keysA_storeA _ _ _ hnd1]
  · refine ⟨?_, ?_, ?_⟩
    · simp only [is_rate_limited, sliding_step, hcur]
      simp [hle]
    · simp only [is_rate_limited, sliding_step, hcur]
      simp only [hle, if_neg, ite_false]
      unfold proj_requests
      simp [lookupA_storeA_self]
    · simp only [is_rate_limited, hcur]
      simp [hle, nodup_keysA_storeA _ _ _ hnd1]

theorem sliding_run_count (window limit : Int) (hw : 0 < window) :
    ∀ (ts : List Int) (tprev : Int), List.Chain (fun x y => x ≤ y) tprev ts →
      ∀ (A : List Int) (θ : Int), θ ≤ tprev - window →
        (∀ a ∈ A, a ≤ tprev) →
        (∀ T : Int,
          ((A.countP (fun a => decide (T - window < a ∧ a ≤ T)) : Int) ≤ limit)) →
        ∀ T : Int,
          (((sliding_run limit window
                (A.filter (fun a => decide (θ < a))) ts).1.countP
              (fun p => decide (p.2 = false ∧ T - window < p.1 ∧ p.1 ≤ T)) : Int)
            + (A.countP (fun a => decide (T - window < a ∧ a ≤ T)) : Int) ≤ limit) := by
  intro ts
  induction ts with
  | nil =>
    intro tprev hch A θ hθ hA hcount T
    simpa [sliding_run] using hcount T
  | cons t ts ih =>
    intro tprev hch A θ hθ hA hcount T
    cases hch with
    | cons hle hch' =>
    have hcur : (A.filter (fun a => decide (θ < a))).filter
        (fun a => decide (t - window < a)) =
        A.filter (fun a => decide (t - window < a)) := by
      rw [List.filter_filter]
      apply List.filter_congr
      intro a _
      by_cases h : t - window < a
      · have hθa : θ < a := by omega
        simp [h, hθa]
      · simp [h]
    by_cases hle2 : limit ≤
        ((A.filter (fun a => decide (t - window < a))).length : Int)
    · have hstep : sliding_step (A.filter (fun a => decide (θ < a)))
          limit window t = (true, A.filter (fun a => decide (t - window < a))) := by
        simp only [sliding_step, hcur]
        rw [if_pos hle2]
      have hrun : (sliding_run limit window
            (A.filter (fun a => decide (θ < a))) (t :: ts)).1
          = (t, true) :: (sliding_run limit window
              (A.filter (fun a => decide (t - window < a))) ts).1 := by
        simp [sliding_run, hstep]
      have ihx := ih t hch' A (t - window) (by omega)
        (fun a ha => le_trans (hA a ha) hle) hcount T
      rw [hrun, List.countP_cons]
      simp only [decide_eq_true_eq]
      rw [if_neg (by simp)]
      omega
    · have hstep : sliding_step (A.filter (fun a => decide (θ < a)))
          limit window t
          = (false, A.filter (fun a => decide (t - window < a)) ++ [t]) := by
        simp only [sliding_step, hcur]
        rw [if_neg hle2]
      have htt : t - window < t := by omega
      have hA' : (A ++ [t]).filter (fun a => decide (t - window < a)) =
          A.filter (fun a => decide (t - window < a)) ++ [t] := by
        rw [List.filter_append]
        simp [htt]
      have hcount' : ∀ T' : Int,
          (((A ++ [t]).countP
            (fun a => decide (T' - window < a ∧ a ≤ T')) : Int) ≤ limit) := by
        intro T'
        rw [List.countP_append]
        by_cases hin : T' - window < t ∧ t ≤ T'
        · have h1 : A.countP (fun a => decide (T' - window < a ∧ a ≤ T')) ≤
              (A.filter (fun a => decide (t - window < a))).length := by
            rw [← List.countP_eq_length_filter]
            apply List.countP_mono_left
            intro x hx hpx
            simp only [decide_eq_true_eq] at hpx ⊢
            omega
          have h2 : [t].countP (fun a => decide (T' - window < a ∧ a ≤ T')) = 1 := by
            simp [hin]
          rw [h2]
          push_cast
          omega
        · have h2 : [t].countP (fun a => decide (T' - window < a ∧ a ≤ T')) = 0 := by
            simp [List.countP_cons, hin]
          rw [h2]
          simpa using hcount T'
      have ihx := ih t hch' (A ++ [t]) (t - window) (by omega)
        (by
          intro a ha
          rcases List.mem_append.mp ha with h1 | h1
          · exact le_trans (hA a h1) hle
          · simp at h1
            omega)
        hcount' T
      have hrun : (sliding_run limit window
            (A.filter (fun a => decide (θ < a))) (t :: ts)).1
          = (t, false) :: (sliding_run limit window
              ((A ++ [t]).filter (fun a => decide (t - window < a))) ts).1 := by
        rw [hA']
        simp [sliding_run, hstep]
      rw [hrun, List.countP_cons]
      rw [List.countP_append] at ihx
      by_cases hin : T - window < t ∧ t ≤ T
      · have h2 : [t].countP (fun a => decide (T - window < a ∧ a ≤ T)) = 1 := by
          simp [hin]
        rw [h2] at ihx
        have h3 : (decide ((false = false) ∧ T - window < t ∧ t ≤ T)) = true := by
          simp [hin]
        rw [if_pos h3] at *
        omega
      · have h2 : [t].countP (fun a => decide (T - window < a ∧ a ≤ T)) = 0 := by
          simp [List.countP_cons, hin]
        rw [h2] at ihx
        have h3 : (decide ((false = false) ∧ T - window < t ∧ t ≤ T)) = false := by
          simp [hin]
        rw [h3]
        simp only [Bool.false_eq_true, if_false]
        omega

theorem run_calls_proj (rlW : Int) (id : String) (limit window : Int)
    (hw : window ≤ rlW) :
    ∀ (ts : List Int) (svc : InMemoryRateLimitService),
      (keysA svc.requests).Nodup →
      (run_calls rlW id limit window svc ts).1 =
        (sliding_run limit window (proj_requests svc id) ts).1 := by
  intro ts
  induction ts with
  | nil =>
    intro svc hnd
    rfl
  | cons t ts ih =>
    intro svc hnd
    obtain ⟨h1, h2, h3⟩ := is_rate_limited_proj rlW svc id limit window t hnd hw
    have hrest := ih (is_rate_limited rlW svc id limit window t).2 h3
    rw [h2] at hrest
    simp only [run_calls, sliding_run]
    rw [h1, hrest]

/-- **C4** (amended).  Sliding-window soundness of
`InMemoryRateLimitService.is_rate_limited`: for every sequence of calls with
non-decreasing times for a fixed identifier, fixed non-negative `limit` and
fixed `window`, *provided the caller's `window` does not exceed the
service-wide cleanup constant `RATE_LIMIT_WINDOW`*, the number of calls
reporting "not limited" whose time lies in any trailing `window`-second
interval `(T - window, T]` never exceeds `limit`.  (Without the added
hypothesis `window ≤ RATE_LIMIT_WINDOW` the original claim is false: the
periodic `_cleanup_expired` sweep drops timestamps older than
`RATE_LIMIT_WINDOW` even when they are still inside the caller's window, see
the counterexample.) -/
theorem rate_limiter_sliding_window_bound (rate_limit_window window limit c0 : Int)
    (identifier : String) (times : List Int)
    (hlim : 0 ≤ limit) (hw : window ≤ rate_limit_window)
    (hchain : times.Chain' (fun x y => x ≤ y)) (T : Int) :
    (((run_calls rate_limit_window identifier limit window
        ⟨[], c0⟩ times).1.countP
      (fun p => decide (p.2 = false ∧ T - window < p.1 ∧ p.1 ≤ T)) : Int)) ≤ limit := by
  rw [run_calls_proj rate_limit_window identifier limit window hw times ⟨[], c0⟩
    (by simp [keysA])]
  have hproj : proj_requests ⟨[], c0⟩ identifier = [] := rfl
  rw [hproj]
  cases times with
  | nil =>
    simp [sliding_run]
    exact hlim
  | cons t ts =>
    by_cases hw0 : 0 < window
    · have hch : List.Chain (fun x y : Int => x ≤ y) t (t :: ts) :=
        List.Chain.cons (le_refl t) hchain
      have hmain := sliding_run_count window limit hw0 (t :: ts) t hch [] (t - window)
        (by omega) (by simp)
        (by
          intro T'
          simpa using hlim) T
      simpa using hmain
    · have hnone : ∀ p ∈ (sliding_run limit window [] (t :: ts)).1,
          ¬(p.2 = false ∧ T - window < p.1 ∧ p.1 ≤ T) := by
        intro p hp
        rintro ⟨h1, h2, h3⟩
        omega
      rw [List.countP_eq_zero.mpr (by
        intro a ha
        simp only [decide_eq_true_eq]
        exact hnone a ha)]
      simpa using hlim

/-- **C4** counterexample.  With the service-wide cleanup constant
`RATE_LIMIT_WINDOW = 3600` and a caller window of `4000 > 3600`, two calls at
times `0` and `3601` are both admitted although `limit = 1` and both lie in
the trailing 4000-second interval ending at `3601`: the interval-gated
`_cleanup_expired` sweep runs during the second call and deletes the
timestamp `0`, which is still inside the caller's window.  This refutes the
claim as stated (which quantifies over every `window`). -/
theorem rate_limiter_sliding_window_violated :
    ¬ (((run_calls 3600 "client" 1 4000 ⟨[], 0⟩ [0, 3601]).1.countP
      (fun p => decide (p.2 = false ∧ 3601 - 4000 < p.1 ∧ p.1 ≤ 3601)) : Int) ≤ 1) := by
  decide

theorem rate_limiter_sliding_window_bound_witness :
    (((run_calls 3600 "client" 1 10 ⟨[], 0⟩ [0, 1]).1.countP
      (fun p => decide (p.2 = false ∧ 1 - 10 < p.1 ∧ p.1 ≤ 1)) : Int)) ≤ 1 :=
  rate_limiter_sliding_window_bound 3600 10 1 0 "client" [0, 1]
    (by decide) (by decide) (by simp [List.chain'_cons]) 1

theorem run_calls_replicate (rlW window limit : Int) (id : String) (tp : Int)
    (hw0 : 0 < window) (hw : window ≤ rlW) (hl : 0 ≤ limit) :
    ∀ (n j : Nat) (svc : InMemoryRateLimitService),
      (keysA svc.requests).Nodup →
      (proj_requests svc id).filter (fun ts => decide (tp - window < ts)) =
        List.replicate j tp →
      ((run_calls rlW id limit window svc (List.replicate n tp)).1.countP
          (fun p => decide (p.2 = false))) = min n (limit.toNat - j) := by
  intro n
  induction n with
  | zero =>
    intro j svc hnd hj
    simp [run_calls]
  | succ n ih =>
    intro j svc hnd hj
    obtain ⟨h1, h2, h3⟩ := is_rate_limited_proj rlW svc id limit window tp hnd hw
    have htp : tp - window < tp := by omega
    rw [List.replicate_succ]
    simp only [run_calls]
    by_cases hle : limit ≤ (j : Int)
    · have hcond : limit ≤ (((proj_requests svc id).filter
          (fun ts => decide (tp - window < ts))).length : Int) := by
        rw [hj, List.length_replicate]
        exact hle
      have hstep1 : (is_rate_limited rlW svc id limit window tp).1 = true := by
        rw [h1]
        simp only [sliding_step]
        rw [if_pos hcond]
      have hproj2 : proj_requests (is_rate_limited rlW svc id limit window tp).2 id =
          List.replicate j tp := by
        rw [h2]
        simp only [sliding_step]
        rw [if_pos hcond, hj]
      have hj2 : (proj_requests (is_rate_limited rlW svc id limit window tp).2
          id).filter (fun ts => decide (tp - window < ts)) = List.replicate j tp := by
        rw [hproj2]
        apply List.filter_eq_self.mpr
        intro a ha
        have hatp := List.eq_of_mem_replicate ha
        subst hatp
        simpa using htp
      have ihx := ih j (is_rate_limited rlW svc id limit window tp).2 h3 hj2
      rw [List.countP_cons, hstep1, ihx]
      have hjt : limit.toNat ≤ j := by omega
      simp only [decide_eq_true_eq]
      rw [if_neg (by simp)]
      omega
    · have hcond : ¬ limit ≤ (((proj_requests svc id).filter
          (fun ts => decide (tp - window < ts))).length : Int) := by
        rw [hj, List.length_replicate]
        exact hle
      have hstep1 : (is_rate_limited rlW svc id limit window tp).1 = false := by
        rw [h1]
        simp only [sliding_step]
        rw [if_neg hcond]
      have hproj2 : proj_requests (is_rate_limited rlW svc id limit window tp).2 id =
          List.replicate (j + 1) tp := by
        rw [h2]
        simp only [sliding_step]
        rw [if_neg hcond, hj, List.replicate_succ']
      have hj2 : (proj_requests (is_rate_limited rlW svc id limit window tp).2
          id).filter (fun ts => decide (tp - window < ts)) =
          List.replicate (j + 1) tp := by
        rw [hproj2]
        apply List.filter_eq_self.mpr
        intro a ha
        have hatp := List.eq_of_mem_replicate ha
        subst hatp
        simpa using htp
      have ihx := ih (j + 1) (is_rate_limited rlW svc id limit window tp).2 h3 hj2
      rw [List.countP_cons, hstep1, ihx]
      have hjt : j < limit.toNat := by omega
      rw [if_pos (by simp)]
      omega

/-- **C5** (amended).  Per-call behaviour of
`InMemoryRateLimitService.is_rate_limited`, *provided the caller's `window`
does not exceed the service-wide cleanup constant `RATE_LIMIT_WINDOW`* (the
original unconditional claim is refuted by `rate_limiter_step_drop_violated`,
where the cleanup sweep also drops a timestamp that is younger than
`now - window`): the call reports limited iff at least `limit` timestamps
survive the per-call drop of timestamps at or below `now - window`; on a
limited call nothing is appended (only the compacted list is stored back)
while otherwise `now` is appended; with `limit = 0` every call reports
limited (this conjunct needs no window hypothesis in its own right but is
stated under the theorem's hypotheses); and after a rejection at `now`, once
the window has elapsed (calls at time `tp ≥ now + window`), exactly `limit`
further calls are admitted. -/
theorem is_rate_limited_step_behaviour (rate_limit_window window limit now : Int)
    (svc : InMemoryRateLimitService) (identifier : String)
    (hnd : (keysA svc.requests).Nodup) (hw : window ≤ rate_limit_window) :
    ((is_rate_limited rate_limit_window svc identifier limit window now).1 = true ↔
        limit ≤ ((kept_timestamps svc identifier window now).length : Int)) ∧
      proj_requests
          (is_rate_limited rate_limit_window svc identifier limit window now).2
          identifier =
        (if limit ≤ ((kept_timestamps svc identifier window now).length : Int) then
          kept_timestamps svc identifier window now
        else kept_timestamps svc identifier window now ++ [now]) ∧
      (limit = 0 →
        (is_rate_limited rate_limit_window svc identifier limit window now).1 =
          true) ∧
      (∀ (tp : Int) (n : Nat), 0 < window → 0 ≤ limit →
        (∀ x ∈ proj_requests svc identifier, x ≤ now) →
        (is_rate_limited rate_limit_window svc identifier limit window now).1 =
          true →
        now + window ≤ tp →
        ((run_calls rate_limit_window identifier limit window
            (is_rate_limited rate_limit_window svc identifier limit window now).2
            (List.replicate n tp)).1.countP
          (fun p => decide (p.2 = false))) = min n limit.toNat) := by
  obtain ⟨h1, h2, h3⟩ :=
    is_rate_limited_proj rate_limit_window svc identifier limit window now hnd hw
  have hkept : (sliding_step (proj_requests svc identifier) limit window now) =
      (if limit ≤ ((kept_timestamps svc identifier window now).length : Int) then
        (true, kept_timestamps svc identifier window now)
      else (false, kept_timestamps svc identifier window now ++ [now])) := rfl
  refine ⟨?_, ?_, ?_, ?_⟩
  · rw [h1, hkept]
    by_cases hc : limit ≤
        ((kept_timestamps svc identifier window now).length : Int)
    · simp [hc]
    · simp [hc]
  · rw [h2, hkept]
    by_cases hc : limit ≤
        ((kept_timestamps svc identifier window now).length : Int)
    · simp [hc]
    · simp [hc]
  · intro hl0
    subst hl0
    rw [h1, hkept]
    rw [if_pos (by positivity)]
  · intro tp n hw0 hl hbound hrej htp
    have hc : limit ≤
        ((kept_timestamps svc identifier window now).length : Int) := by
      by_contra hc
      rw [h1, hkept, if_neg hc] at hrej
      simp at hrej
    have hzero : (proj_requests
        (is_rate_limited rate_limit_window svc identifier limit window now).2
        identifier).filter (fun ts => decide (tp - window < ts)) =
        List.replicate 0 tp := by
      rw [h2, hkept, if_pos hc]
      show (kept_timestamps svc identifier window now).filter
        (fun ts => decide (tp - window < ts)) = List.replicate 0 tp
      simp only [List.replicate_zero]
      apply List.filter_eq_nil_iff.mpr
      intro a ha
      have hmem : a ∈ proj_requests svc identifier :=
        List.mem_of_mem_filter (l := proj_requests svc identifier) ha
      have hax := hbound a hmem
      simp only [decide_eq_true_eq]
      omega
    have hres := run_calls_replicate rate_limit_window window limit identifier tp
      hw0 hw hl n 0
      (is_rate_limited rate_limit_window svc identifier limit window now).2
      h3 hzero
    simpa using hres

/-- **C5** counterexample.  At `now = 3601` with caller window `4000` and
`limit = 1`, the recorded timestamp `0` is *not* older than
`now - window = -399`, so by the claim's own description one timestamp
remains and the call must report limited; but the call reports "not limited"
because the interval-gated `_cleanup_expired` sweep (cutoff
`now - RATE_LIMIT_WINDOW = 1`) has already discarded it. -/
theorem rate_limiter_step_drop_violated :
    (is_rate_limited 3600 ⟨[("client", [0])], 0⟩ "client" 1 4000 3601).1 = false ∧
      (1 : Int) ≤
        ((kept_timestamps ⟨[("client", [0])], 0⟩ "client" 4000 3601).length : Int) := by
  decide

theorem is_rate_limited_step_behaviour_witness :
    (is_rate_limited 3600 ⟨[("client", [5])], 0⟩ "client" 1 10 6).1 = true :=
  ((is_rate_limited_step_behaviour 3600 10 1 6 ⟨[("client", [5])], 0⟩ "client"
    (by simp [keysA]) (by decide)).1).mpr (by decide)

theorem list_min_mem : ∀ (xs : List Int) (x : Int), list_min x xs ∈ x :: xs := by
  intro xs
  induction xs with
  | nil =>
    intro x
    simp [list_min]
  | cons y ys ih =>
    intro x
    have h := ih (min x y)
    rw [show list_min x (y :: ys) = list_min (min x y) ys from rfl]
    rcases List.mem_cons.mp h with h1 | h1
    · rcases min_choice x y with h2 | h2
      · rw [h1, h2]
        exact List.mem_cons_self _ _
      · rw [h1, h2]
        exact List.mem_cons_of_mem _ (List.mem_cons_self _ _)
    · exact List.mem_cons_of_mem _ (List.mem_cons_of_mem _ h1)

theorem list_min_le_head : ∀ (xs : List Int) (x : Int), list_min x xs ≤ x := by
  intro xs
  induction xs with
  | nil =>
    intro x
    simp [list_min]
  | cons y ys ih =>
    intro x
    calc list_min x (y :: ys) = list_min (min x y) ys := rfl
      _ ≤ min x y := ih (min x y)
      _ ≤ x := min_le_left x y

theorem list_min_le : ∀ (xs : List Int) (x a : Int), a ∈ x :: xs →
    list_min x xs ≤ a := by
  intro xs
  induction xs with
  | nil =>
    intro x a ha
    simp at ha
    simp [list_min, ha]
  | cons y ys ih =>
    intro x a ha
    rcases List.mem_cons.mp ha with h1 | h1
    · rw [h1]
      exact list_min_le_head (y :: ys) x
    · rcases List.mem_cons.mp h1 with h2 | h2
      · rw [h2]
        calc list_min x (y :: ys) = list_min (min x y) ys := rfl
          _ ≤ min x y := list_min_le_head ys (min x y)
          _ ≤ y := min_le_right x y
      · exact ih (min x y) a (List.mem_cons_of_mem _ h2)

/-- **C9**.  `get_rate_limit_info` is a pure read-only projection of the
sliding window: it leaves the service state completely unchanged (no
timestamp recorded, no compaction written back, no key created), returns as
`current` the number of recorded timestamps inside the trailing window, and
as `remaining_time` the clamped number of seconds until the oldest such
timestamp leaves the window (`0` when there is none). -/
theorem get_rate_limit_info_readonly (svc : InMemoryRateLimitService)
    (identifier : String) (window now : Int) :
    (get_rate_limit_info svc identifier window now).2 = svc ∧
      (get_rate_limit_info svc identifier window now).1.1 =
        ((kept_timestamps svc identifier window now).length : Int) ∧
      (kept_timestamps svc identifier window now = [] →
        (get_rate_limit_info svc identifier window now).1.2 = 0) ∧
      (∀ x xs, kept_timestamps svc identifier window now = x :: xs →
        ∃ oldest, oldest ∈ x :: xs ∧ (∀ y ∈ x :: xs, oldest ≤ y) ∧
          (get_rate_limit_info svc identifier window now).1.2 =
            max 0 (window - (now - oldest))) := by
  cases hl : lookupA svc.requests identifier with
  | none =>
    have hkept : kept_timestamps svc identifier window now = [] := by
      simp [kept_timestamps, proj_requests, hl]
    refine ⟨?_, ?_, ?_, ?_⟩
    · simp [get_rate_limit_info, hl]
    · simp [get_rate_limit_info, hl, hkept]
    · intro _
      simp [get_rate_limit_info, hl]
    · intro x xs hx
      rw [hkept] at hx
      cases hx
  | some l =>
    have hkept : kept_timestamps svc identifier window now =
        l.filter (fun ts => decide (now - window < ts)) := by
      simp [kept_timestamps, proj_requests, hl]
    refine ⟨?_, ?_, ?_, ?_⟩
    · simp only [get_rate_limit_info, hl]
    · simp only [get_rate_limit_info, hl, hkept]
    · intro hnil
      rw [hkept] at hnil
      simp only [get_rate_limit_info, hl, hnil]
    · intro x xs hx
      rw [hkept] at hx
      refine ⟨list_min x xs, list_min_mem xs x, fun y hy => list_min_le xs x y hy, ?_⟩
      simp only [get_rate_limit_info, hl, hx]

/-- A cached value: the service stores arbitrary Python values; the embedding
distinguishes integers (the only type `increment` treats specially) from
other values. -/
inductive CachedValue where
  | vint : Int → CachedValue
  | vstr : String → CachedValue
deriving DecidableEq

/-- State of `InMemoryCacheService`: the `_cache` dict mapping keys to
`(value, expiry_time)` pairs (expiry time `0` meaning "never expires"), and
`_last_cleanup`. -/
structure InMemoryCacheService where
  cache : List (String × (CachedValue × Int))
  last_cleanup : Int
deriving DecidableEq

/-- `InMemoryCacheService._cleanup_expired`: interval-gated removal of all
entries with `expiry > 0 and current_time > expiry`. -/
def cache_cleanup_expired (now : Int) (svc : InMemoryCacheService) :
    InMemoryCacheService :=
  if now - svc.last_cleanup < cleanup_interval then svc
  else
    { cache := svc.cache.filter
        (fun kv => !(decide (0 < kv.2.2) && decide (kv.2.2 < now))),
      last_cleanup := now }

/-- `InMemoryCacheService.set`.  `expiry_time = current_time + expire if
expire else 0`: a Python-falsy `expire` argument (`None` *or* `0`) yields
`expiry_time = 0`, i.e. "never expires". -/
def cache_set (svc : InMemoryCacheService) (key : String) (value : CachedValue)
    (expire : Option Int) (now : Int) : Bool × InMemoryCacheService :=
  let expiry_time : Int :=
    match expire with
    | none => 0
    | some e => if e = 0 then 0 else now + e
  let svc1 := cache_cleanup_expired now svc
  (true, { svc1 with cache := storeA svc1.cache key (value, expiry_time) })

/-- `InMemoryCacheService.get`: returns the stored value if present and not
expired, otherwise the default, deleting the entry when it was expired
(expire-on-read). -/
def cache_get (svc : InMemoryCacheService) (key : String)
    (default : CachedValue) (now : Int) : CachedValue × InMemoryCacheService :=
  match lookupA svc.cache key with
  | none => (default, svc)
  | some (v, expiry) =>
    if 0 < expiry ∧ expiry < now then
      (default, { svc with cache := eraseA svc.cache key })
    else (v, svc)

/-- `InMemoryCacheService.increment`: treats the stored value as an integer
counter (base `0` when the key is absent or holds a non-integer), never
consults the entry's expiry, and stores the new value with expiry `0`
("no expiry for counters"). -/
def cache_increment (svc : InMemoryCacheService) (key : String)
    (amount : Int) : Int × InMemoryCacheService :=
  let current : Int :=
    match lookupA svc.cache key with
    | some (CachedValue.vint v, _) => v
    | _ => 0
  let new_value := current + amount
  (new_value,
    { svc with cache := storeA svc.cache key (CachedValue.vint new_value, 0) })

/-- `n` successive `increment(key)` calls with the default amount `1`,
returning the list of returned counter values. -/
def run_increments (key : String) :
    InMemoryCacheService → Nat → List Int × InMemoryCacheService
  | svc, 0 => ([], svc)
  | svc, n + 1 =>
    let step := cache_increment svc key 1
    let rest := run_increments key step.2 n
    (step.1 :: rest.1, rest.2)

theorem keysA_filter_sublist {β : Type} (p : String × β → Bool)
    (m : List (String × β)) : List.Sublist (keysA (m.filter p)) (keysA m) :=
  (List.filter_sublist m).map Prod.fst

theorem lookupA_eraseA_self {β : Type} (m : List (String × β)) (k : String)
    (hnd : (keysA m).Nodup) : lookupA (eraseA m k) k = none := by
  induction m with
  | nil => rfl
  | cons kv rest ih =>
    obtain ⟨k0, v0⟩ := kv
    rw [keysA_cons, List.nodup_cons] at hnd
    by_cases hk : k0 = k
    · subst hk
      rw [eraseA, if_pos rfl]
      exact lookupA_eq_none_of_not_mem rest k0 hnd.1
    · rw [eraseA, if_neg hk, lookupA, if_neg hk]
      exact ih hnd.2

theorem nodup_cache_cleanup (now : Int) (svc : InMemoryCacheService)
    (hnd : (keysA svc.cache).Nodup) :
    (keysA (cache_cleanup_expired now svc).cache).Nodup := by
  unfold cache_cleanup_expired
  by_cases hg : now - svc.last_cleanup < cleanup_interval
  · simpa [hg] using hnd
  · simp only [hg, if_neg, ite_false]
    exact List.Nodup.sublist (keysA_filter_sublist _ _) hnd

/-- **C6** (amended).  TTL semantics of the cache store: `set` unconditionally
overwrites the entry for the key; with a *positive* ttl the entry expires
`ttl` time units after the `set`, so a `get` after the expiry time returns
the default and evicts the entry (expire-on-read) while a `get` at or before
the expiry time returns the stored value; with an *absent* ttl the entry
never expires.  Amendment forced by the counterexample
`cache_set_get_ttl_violated`: a ttl of `0`, although "given", is Python-falsy
in `current_time + expire if expire else 0`, so it also means "never
expires" rather than "expires immediately". -/
theorem cache_set_get_ttl (svc : InMemoryCacheService) (key : String)
    (v default : CachedValue) (now0 : Int)
    (hnd : (keysA svc.cache).Nodup) (hnow : 0 ≤ now0) :
    (∀ e : Option Int,
      lookupA (cache_set svc key v e now0).2.cache key =
        some (v, match e with
          | none => 0
          | some e0 => if e0 = 0 then 0 else now0 + e0)) ∧
      (∀ ttl now1, 0 < ttl → now0 + ttl < now1 →
        (cache_get (cache_set svc key v (some ttl) now0).2 key default now1).1 =
            default ∧
          lookupA (cache_get (cache_set svc key v (some ttl) now0).2 key default
            now1).2.cache key = none) ∧
      (∀ ttl now1, 0 < ttl → now1 ≤ now0 + ttl →
        (cache_get (cache_set svc key v (some ttl) now0).2 key default now1).1 = v ∧
          (cache_get (cache_set svc key v (some ttl) now0).2 key default now1).2 =
            (cache_set svc key v (some ttl) now0).2) ∧
      (∀ now1 : Int,
        (cache_get (cache_set svc key v none now0).2 key default now1).1 = v) ∧
      (∀ now1 : Int,
        (cache_get (cache_set svc key v (some 0) now0).2 key default now1).1 = v) := by
  have hnd1 : ∀ e : Option Int, (keysA (cache_set svc key v e now0).2.cache).Nodup := by
    intro e
    simp only [cache_set]
    exact nodup_keysA_storeA _ _ _ (nodup_cache_cleanup now0 svc hnd)
  have hlook : ∀ e : Option Int,
      lookupA (cache_set svc key v e now0).2.cache key =
        some (v, match e with
          | none => 0
          | some e0 => if e0 = 0 then 0 else now0 + e0) := by
    intro e
    simp only [cache_set]
    exact lookupA_storeA_self _ _ _
  refine ⟨hlook, ?_, ?_, ?_, ?_⟩
  · intro ttl now1 httl hlate
    have hne : ¬(ttl = 0) := by omega
    have hl : lookupA (cache_set svc key v (some ttl) now0).2.cache key =
        some (v, now0 + ttl) := by
      rw [hlook (some ttl)]
      simp [hne]
    have hcond : 0 < now0 + ttl ∧ now0 + ttl < now1 := ⟨by omega, hlate⟩
    constructor
    · simp [cache_get, hl, hcond]
    · simp only [cache_get, hl]
      rw [if_pos hcond]
      exact lookupA_eraseA_self _ _ (hnd1 (some ttl))
  · intro ttl now1 httl hearly
    have hne : ¬(ttl = 0) := by omega
    have hl : lookupA (cache_set svc key v (some ttl) now0).2.cache key =
        some (v, now0 + ttl) := by
      rw [hlook (some ttl)]
      simp [hne]
    have hcond : ¬(0 < now0 + ttl ∧ now0 + ttl < now1) := by omega
    constructor
    · simp [cache_get, hl, hcond]
    · simp [cache_get, hl, hcond]
  · intro now1
    have hl : lookupA (cache_set svc key v none now0).2.cache key =
        some (v, 0) := by
      rw [hlook none]
    simp [cache_get, hl]
  · intro now1
    have hl : lookupA (cache_set svc key v (some 0) now0).2.cache key =
        some (v, 0) := by
      rw [hlook (some 0)]
      simp
    simp [cache_get, hl]

/-- **C6** counterexample.  `set("k", "v", ttl=0)` at time `0` followed by
`get("k", default)` at time `100` returns the stored value, not the default:
the ttl `0` *was* given, so by the claim the entry should have expired `0`
time units after the `set`, but `current_time + expire if expire else 0`
treats `0` as falsy and stores the entry with no expiry. -/
theorem cache_set_get_ttl_violated :
    (cache_get (cache_set ⟨[], 0⟩ "k" (CachedValue.vstr "v") (some 0) 0).2 "k"
        (CachedValue.vstr "d") 100).1 = CachedValue.vstr "v" ∧
      CachedValue.vstr "v" ≠ CachedValue.vstr "d" := by
  decide

theorem cache_set_get_ttl_witness :
    (cache_get (cache_set ⟨[], 0⟩ "k" (CachedValue.vstr "v") (some 5) 0).2 "k"
      (CachedValue.vstr "d") 10).1 = CachedValue.vstr "d" :=
  ((cache_set_get_ttl ⟨[], 0⟩ "k" (CachedValue.vstr "v") (CachedValue.vstr "d") 0
    (by simp [keysA]) (by decide)).2.1 5 10 (by decide) (by decide)).1

theorem run_increments_from (key : String) :
    ∀ (n : Nat) (m : Int) (svc : InMemoryCacheService),
      lookupA svc.cache key = some (CachedValue.vint m, 0) →
      (run_increments key svc n).1 =
        (List.range n).map (fun (i : Nat) => m + (i : Int) + 1) := by
  intro n
  induction n with
  | zero =>
    intro m svc hl
    simp [run_increments]
  | succ n ih =>
    intro m svc hl
    have hstep : cache_increment svc key 1 =
        (m + 1,
          { svc with
              cache := storeA svc.cache key (CachedValue.vint (m + 1), 0) }) := by
      simp [cache_increment, hl]
    have hrest := ih (m + 1)
      { svc with cache := storeA svc.cache key (CachedValue.vint (m + 1), 0) }
      (lookupA_storeA_self _ _ _)
    simp only [run_increments, hstep, hrest]
    rw [List.range_succ_eq_map, List.map_cons, List.map_map]
    congr 1
    · push_cast
      ring
    · apply List.map_congr_left
      intro i _
      simp only [Function.comp]
      push_cast
      ring

/-- **C7**.  `increment(k)` called `N` times starting from an absent key
returns `1, 2, …, N` (so `N` on the `N`-th call), and every single
`increment` call stores its result with expiry time `0` ("never expires"),
regardless of what was stored before — in particular regardless of any ttl
installed by an earlier `set` on the same key. -/
theorem cache_increment_counter (key : String) :
    (∀ (svc : InMemoryCacheService), lookupA svc.cache key = none →
      ∀ n : Nat, (run_increments key svc n).1 =
        (List.range n).map (fun (i : Nat) => (i : Int) + 1)) ∧
      (∀ (svc : InMemoryCacheService) (amount : Int),
        lookupA (cache_increment svc key amount).2.cache key =
          some (CachedValue.vint (cache_increment svc key amount).1, 0)) := by
  constructor
  · intro svc hl n
    cases n with
    | zero => simp [run_increments]
    | succ n =>
      have hstep : cache_increment svc key 1 =
          (1,
            { svc with
                cache := storeA svc.cache key (CachedValue.vint 1, 0) }) := by
        simp [cache_increment, hl]
      have hrest := run_increments_from key n 1
        { svc with cache := storeA svc.cache key (CachedValue.vint 1, 0) }
        (lookupA_storeA_self _ _ _)
      simp only [run_increments, hstep, hrest]
      rw [List.range_succ_eq_map, List.map_cons, List.map_map]
      congr 1
      apply List.map_congr_left
      intro i _
      simp only [Function.comp]
      push_cast
      ring
  · intro svc amount
    simp only [cache_increment]
    exact lookupA_storeA_self _ _ _

theorem cache_increment_counter_witness :
    (run_increments "k" ⟨[], 0⟩ 3).1 = [1, 2, 3] := by
  have h := (cache_increment_counter "k").1 ⟨[], 0⟩ rfl 3
  simpa using h

/-- **C10**.  For a key holding an integer value `v` whose expiry time has
already passed without the entry having been evicted, `increment(key,
amount)` returns `v + amount` — it uses the stale expired value as the base
instead of treating the key as absent, because `increment` never consults
the entry's expiry — and stores the result with the expiry cleared. -/
theorem cache_increment_uses_stale_value (svc : InMemoryCacheService)
    (key : String) (amount v expiry now : Int)
    (hlook : lookupA svc.cache key = some (CachedValue.vint v, expiry))
    (_hexpired : 0 < expiry ∧ expiry < now) :
    (cache_increment svc key amount).1 = v + amount ∧
      lookupA (cache_increment svc key amount).2.cache key =
        some (CachedValue.vint (v + amount), 0) := by
  constructor
  · simp [cache_increment, hlook]
  · have h1 : (cache_increment svc key amount).1 = v + amount := by
      simp [cache_increment, hlook]
    have h2 := lookupA_storeA_self svc.cache key
      (CachedValue.vint (v + amount), (0 : Int))
    simp only [cache_increment, hlook]
    exact lookupA_storeA_self _ _ _

theorem cache_increment_uses_stale_value_witness :
    (cache_increment ⟨[("k", (CachedValue.vint 5, 3))], 0⟩ "k" 2).1 = 7 ∧
      lookupA (cache_increment ⟨[("k", (CachedValue.vint 5, 3))], 0⟩ "k"
        2).2.cache "k" = some (CachedValue.vint 7, 0) :=
  cache_increment_uses_stale_value ⟨[("k", (CachedValue.vint 5, 3))], 0⟩ "k" 2 5 3
    10 rfl (by decide)

/-- Configuration of `OTPService` (`OTP_LENGTH`, `OTP_EXPIRY_MINUTES`,
`OTP_MAX_ATTEMPTS`, `OTP_RESEND_COOLDOWN`, `OTP_CLEANUP_ENABLED`). -/
structure OTPConfig where
  otp_length : Nat
  otp_expiry_minutes : Int
  max_attempts : Nat
  resend_cooldown_minutes : Int
  cleanup_enabled : Bool
deriving DecidableEq

/-- The environment defaults (6 digits, 10 minutes, 3 attempts, 2 minutes,
cleanup enabled). -/
def default_config : OTPConfig := ⟨6, 10, 3, 2, true⟩

/-- A row of the `otp_verifications` table as used by `OTPService`. -/
structure OTPVerification where
  email : String
  purpose : String
  otp_code : String
  created_at : Int
  expires_at : Int
  attempts : Nat
  max_attempts : Nat
  is_active : Bool
  is_verified : Bool
  verified_at : Option Int
deriving DecidableEq

/-- Modelled from the spec: the ORM model module `utils/models.py` (column
defaults of `OTPVerification`) is not part of the snapshot; per the spec's
data model a newly created verification record starts with `attempts = 0`,
`isActive = true`, `isVerified` unset and `createdAt = now`, while
`create_otp_verification` passes `email`, `otp_code`, `purpose`,
`expires_at = utcnow() + otp_expiry_minutes` and `max_attempts`
explicitly. -/
def new_record (cfg : OTPConfig) (email purpose : String) (now : Int)
    (otp_code : String) : OTPVerification :=
  { email := email, purpose := purpose, otp_code := otp_code,
    created_at := now, expires_at := now + cfg.otp_expiry_minutes * 60,
    attempts := 0, max_attempts := cfg.max_attempts,
    is_active := true, is_verified := false, verified_at := none }

/-- The filter of `create_otp_verification`'s "existing active OTP" query:
same email and purpose, `is_active == True`, `expires_at > utcnow()`. -/
def create_query (email purpose : String) (now : Int)
    (r : OTPVerification) : Bool :=
  decide (r.email = email ∧ r.purpose = purpose ∧ r.is_active = true ∧
    now < r.expires_at)

/-- The filter of the "active OTP" query of `verify_otp`, `resend_otp` and
`get_otp_status`: same email and purpose, `is_active == True` (no expiry
condition). -/
def active_query (email purpose : String) (r : OTPVerification) : Bool :=
  decide (r.email = email ∧ r.purpose = purpose ∧ r.is_active = true)

/-- In-place ORM mutation of the first row matched by a query. -/
def updateFirst {α : Type} (p : α → Bool) (g : α → α) : List α → List α
  | [] => []
  | x :: xs => if p x then g x :: xs else x :: updateFirst p g xs

/-- `f"Please wait {remaining_seconds} seconds before requesting a new OTP"`. -/
def cooldown_message (remaining_seconds : Int) : String :=
  s!"Please wait {remaining_seconds} seconds before requesting a new OTP"

/-- `OTPService.create_otp_verification`.  The freshly generated random code
and the email-dispatch outcome are parameters (`random.choices` and
`email_service.send_otp_email` are external to the state machine).
`Except.error` models the `ValueError` escaping the function: the cooldown
rejection is raised and re-raised by `except ValueError: raise`.  Returns
the result together with the updated table. -/
def create_otp_verification (cfg : OTPConfig) (db : List OTPVerification)
    (email purpose : String) (now : Int) (otp_code : String)
    (email_sent : Bool) :
    Except String (String × Bool) × List OTPVerification :=
  match db.find? (create_query email purpose now) with
  | some existing =>
    if now - existing.created_at < cfg.resend_cooldown_minutes * 60 then
      (Except.error (cooldown_message
        (cfg.resend_cooldown_minutes * 60 - (now - existing.created_at))), db)
    else
      (Except.ok (otp_code, email_sent),
        updateFirst (create_query email purpose now)
          (fun r => { r with is_active := false }) db
          ++ [new_record cfg email purpose now otp_code])
  | none =>
    (Except.ok (otp_code, email_sent),
      db ++ [new_record cfg email purpose now otp_code])

/-- `OTPService.verify_otp`: returns `(is_valid, message, otp_record)` and
the updated table. -/
def verify_otp (db : List OTPVerification) (email otp_code purpose : String)
    (now : Int) :
    (Bool × String × Option OTPVerification) × List OTPVerification :=
  match db.find? (active_query email purpose) with
  | none => ((false, "No active OTP found for this email", none), db)
  | some r =>
    if r.expires_at < now then
      let r1 := { r with is_active := false }
      ((false, "OTP has expired. Please request a new one", some r1),
        updateFirst (active_query email purpose) (fun _ => r1) db)
    else if r.max_attempts ≤ r.attempts then
      let r1 := { r with is_active := false }
      ((false, "Maximum verification attempts exceeded. Please request a new OTP",
        some r1), updateFirst (active_query email purpose) (fun _ => r1) db)
    else if r.otp_code ≠ otp_code then
      if 0 < r.max_attempts - (r.attempts + 1) then
        let r1 := { r with attempts := r.attempts + 1 }
        ((false, s!"Invalid OTP code. {r.max_attempts - (r.attempts + 1)} attempts remaining",
          some r1), updateFirst (active_query email purpose) (fun _ => r1) db)
      else
        let r1 := { r with attempts := r.attempts + 1, is_active := false }
        ((false, "Invalid OTP code. Maximum attempts exceeded", some r1),
          updateFirst (active_query email purpose) (fun _ => r1) db)
    else
      let r1 := { r with attempts := r.attempts + 1, is_verified := true, verified_at := some now, is_active := false }
      ((true, "OTP verified successfully", some r1),
        updateFirst (active_query email purpose) (fun _ => r1) db)

/-- `OTPService.resend_otp`: the `except Exception` handler catches the
`ValueError` escaping `create_otp_verification` and converts it into the
structured failure result. -/
def resend_otp (cfg : OTPConfig) (db : List OTPVerification)
    (email purpose : String) (now : Int) (otp_code : String)
    (email_sent : Bool) : (Bool × String) × List OTPVerification :=
  match db.find? (active_query email purpose) with
  | none => ((false, "No active OTP found to resend"), db)
  | some existing =>
    if now - existing.created_at < cfg.resend_cooldown_minutes * 60 then
      ((false, cooldown_message
        (cfg.resend_cooldown_minutes * 60 - (now - existing.created_at))), db)
    else
      match create_otp_verification cfg db email purpose now otp_code email_sent with
      | (Except.ok (_, sent), db1) =>
        if sent then ((true, "OTP resent successfully"), db1)
        else ((false, "Failed to send OTP email"), db1)
      | (Except.error _, db1) =>
        ((false, "Failed to resend OTP. Please try again"), db1)

/-- The snapshot returned by `OTPService.get_otp_status`. -/
structure OTPStatus where
  has_active_otp : Bool
  is_expired : Bool
  attempts_remaining : Nat
  can_resend : Bool
  expires_in_seconds : Int
deriving DecidableEq

/-- `OTPService.get_otp_status` (read-only); returned together with the
unchanged table so the frame property can be stated. -/
def get_otp_status (cfg : OTPConfig) (db : List OTPVerification)
    (email purpose : String) (now : Int) : OTPStatus × List OTPVerification :=
  match db.find? (active_query email purpose) with
  | none => (⟨false, false, 0, true, 0⟩, db)
  | some r =>
    (⟨true, decide (r.expires_at < now), r.max_attempts - r.attempts,
      decide (cfg.resend_cooldown_minutes * 60 ≤ now - r.created_at),
      max 0 (r.expires_at - now)⟩, db)

/-- `OTPService.cleanup_expired_otps`: hard-deletes rows with
`expires_at < utcnow() - 24h`; returns the deleted count. -/
def cleanup_expired_otps (cfg : OTPConfig) (db : List OTPVerification)
    (now : Int) : Nat × List OTPVerification :=
  if cfg.cleanup_enabled = false then (0, db)
  else
    (db.countP (fun r => decide (r.expires_at < now - 86400)),
      db.filter (fun r => !decide (r.expires_at < now - 86400)))

/-- The row filter of `OTPService.invalidate_user_otps` (a Python-falsy
`purpose`, modelled as `none`, means "all purposes"). -/
def invalidate_query (email : String) (purpose : Option String)
    (r : OTPVerification) : Bool :=
  decide (r.email = email ∧ r.is_active = true) &&
    (match purpose with
     | none => true
     | some p => decide (r.purpose = p))

/-- `OTPService.invalidate_user_otps`: deactivates every active row for the
email (optionally restricted to one purpose); returns the updated count. -/
def invalidate_user_otps (db : List OTPVerification) (email : String)
    (purpose : Option String) : Nat × List OTPVerification :=
  (db.countP (invalidate_query email purpose),
    db.map (fun r => if invalidate_query email purpose r then
      { r with is_active := false } else r))

/-- The number of rows for `(email, purpose)` that are both flagged active
and unexpired at time `now` — exactly the rows `create_otp_verification`'s
query matches. -/
def active_unexpired (db : List OTPVerification) (email purpose : String)
    (now : Int) : Nat :=
  db.countP (create_query email purpose now)

theorem updateFirst_of_find? {α : Type} (p : α → Bool) :
    ∀ (l : List α) (r : α), l.find? p = some r →
      ∃ l₁ l₂, l = l₁ ++ r :: l₂ ∧ (∀ x ∈ l₁, p x = false) ∧ p r = true ∧
        ∀ g : α → α, updateFirst p g l = l₁ ++ g r :: l₂ := by
  intro l
  induction l with
  | nil =>
    intro r h
    cases h
  | cons x xs ih =>
    intro r h
    by_cases hp : p x
    · rw [List.find?_cons_of_pos _ hp] at h
      have hx : x = r := by injection h
      subst hx
      refine ⟨[], xs, rfl, by simp, hp, ?_⟩
      intro g
      simp [updateFirst, hp]
    · rw [List.find?_cons_of_neg _ hp] at h
      obtain ⟨l₁, l₂, heq, hl₁, hpr, hupd⟩ := ih r h
      refine ⟨x :: l₁, l₂, by rw [heq, List.cons_append], ?_, hpr, ?_⟩
      · intro y hy
        rcases List.mem_cons.mp hy with h1 | h1
        · rw [h1]
          simpa using hp
        · exact hl₁ y h1
      · intro g
        rw [List.cons_append]
        simp [updateFirst, hp, hupd g]

theorem countP_eq_zero_of_imp {α : Type} (p q : α → Bool) (l : List α)
    (hq : ∀ x ∈ l, q x = false) (himp : ∀ x, p x = true → q x = true) :
    l.countP p = 0 :=
  List.countP_eq_zero.mpr (fun a ha hpa => by
    have h1 := himp a hpa
    rw [hq a ha] at h1
    cases h1)

theorem create_query_imp_active (email purpose : String) (now : Int)
    (r : OTPVerification) : create_query email purpose now r = true →
      active_query email purpose r = true := by
  simp only [create_query, active_query, decide_eq_true_eq]
  tauto

theorem create_query_mono (email purpose : String) (now now' : Int)
    (h : now ≤ now') (r : OTPVerification) :
    create_query email purpose now' r = true →
      create_query email purpose now r = true := by
  simp only [create_query, decide_eq_true_eq]
  intro hx
  exact ⟨hx.1, hx.2.1, hx.2.2.1, by omega⟩

theorem countP_map_le_of_imp {α : Type} (p : α → Bool) (f : α → α)
    (l : List α) (h : ∀ x ∈ l, p (f x) = true → p x = true) :
    (l.map f).countP p ≤ l.countP p := by
  induction l with
  | nil => simp
  | cons x xs ih =>
    rw [List.map_cons, List.countP_cons, List.countP_cons]
    have hx := h x (List.mem_cons_self x xs)
    have hih := ih (fun y hy => h y (List.mem_cons_of_mem x hy))
    by_cases hfx : p (f x) = true
    · rw [if_pos hfx, if_pos (hx hfx)]
      omega
    · rw [if_neg hfx]
      by_cases hpx : p x = true
      · rw [if_pos hpx]
        omega
      · rw [if_neg hpx]
        omega

theorem active_unexpired_mono (db : List OTPVerification)
    (email purpose : String) (now now' : Int) (h : now ≤ now') :
    active_unexpired db email purpose now' ≤
      active_unexpired db email purpose now :=
  List.countP_mono_left (fun x _ hx => create_query_mono email purpose now now' h x hx)

theorem create_preserves_active_unexpired (cfg : OTPConfig)
    (email purpose : String) (db : List OTPVerification) (now : Int)
    (code : String) (sent : Bool)
    (h : active_unexpired db email purpose now ≤ 1) :
    active_unexpired
      (create_otp_verification cfg db email purpose now code sent).2
      email purpose now ≤ 1 := by
  unfold create_otp_verification
  cases hf : db.find? (create_query email purpose now) with
  | none =>
    have hz : db.countP (create_query email purpose now) = 0 :=
      List.countP_eq_zero.mpr (by
        intro a ha
        simpa using List.find?_eq_none.mp hf a ha)
    simp only [active_unexpired, List.countP_append, hz, List.countP_cons,
      List.countP_nil]
    split <;> omega
  | some ex =>
    dsimp only
    by_cases hcd : now - ex.created_at < cfg.resend_cooldown_minutes * 60
    · rw [if_pos hcd]
      exact h
    · rw [if_neg hcd]
      obtain ⟨l₁, l₂, heq, hl₁, hpr, hupd⟩ :=
        updateFirst_of_find? (create_query email purpose now) db ex hf
      have hz1 : l₁.countP (create_query email purpose now) = 0 :=
        List.countP_eq_zero.mpr (by
          intro a ha
          simpa using hl₁ a ha)
      have hbefore : db.countP (create_query email purpose now) =
          1 + l₂.countP (create_query email purpose now) := by
        rw [heq, List.countP_append, List.countP_cons, hz1, if_pos hpr]
        omega
      have hl₂ : l₂.countP (create_query email purpose now) = 0 := by
        have := h
        simp only [active_unexpired] at this
        omega
      have hex' : create_query email purpose now { ex with is_active := false } =
          false := by
        simp [create_query]
      simp only [active_unexpired, hupd, List.countP_append, List.countP_cons,
        List.countP_nil, hz1, hl₂, hex', Bool.false_eq_true, if_false]
      split <;> omega

theorem verify_preserves_active_unexpired (email purpose : String)
    (db : List OTPVerification) (code : String) (now : Int)
    (h : active_unexpired db email purpose now ≤ 1) :
    active_unexpired (verify_otp db email code purpose now).2
      email purpose now ≤ 1 := by
  unfold verify_otp
  cases hf : db.find? (active_query email purpose) with
  | none =>
    exact h
  | some r =>
    dsimp only
    obtain ⟨l₁, l₂, heq, hl₁, hpr, hupd⟩ :=
      updateFirst_of_find? (active_query email purpose) db r hf
    have hz1 : l₁.countP (create_query email purpose now) = 0 :=
      countP_eq_zero_of_imp _ _ _ hl₁ (create_query_imp_active email purpose now)
    have hsplit : db.countP (create_query email purpose now) =
        (if create_query email purpose now r = true then 1 else 0) +
          l₂.countP (create_query email purpose now) := by
      rw [heq, List.countP_append, List.countP_cons, hz1]
      omega
    have key : ∀ r1 : OTPVerification,
        (create_query email purpose now r1 = true →
          create_query email purpose now r = true) →
        active_unexpired (l₁ ++ r1 :: l₂) email purpose now ≤ 1 := by
      intro r1 himp
      simp only [active_unexpired] at h ⊢
      rw [List.countP_append, List.countP_cons, hz1]
      rw [hsplit] at h
      by_cases h1 : create_query email purpose now r1 = true
      · rw [if_pos h1]
        rw [if_pos (himp h1)] at h
        omega
      · rw [if_neg h1]
        split at h <;> omega
    split_ifs with h1 h2 h3 h4
    · rw [hupd]
      exact key _ (by
        intro hx
        exfalso
        simp [create_query] at hx)
    · rw [hupd]
      exact key _ (by
        intro hx
        exfalso
        simp [create_query] at hx)
    · rw [hupd]
      exact key _ (by
        intro hx
        simpa [create_query] using hx)
    · rw [hupd]
      exact key _ (by
        intro hx
        exfalso
        simp [create_query] at hx)
    · rw [hupd]
      exact key _ (by
        intro hx
        exfalso
        simp [create_query] at hx)

theorem resend_preserves_active_unexpired (cfg : OTPConfig)
    (email purpose : String) (db : List OTPVerification) (now : Int)
    (code : String) (sent : Bool)
    (h : active_unexpired db email purpose now ≤ 1) :
    active_unexpired (resend_otp cfg db email purpose now code sent).2
      email purpose now ≤ 1 := by
  unfold resend_otp
  cases hf : db.find? (active_query email purpose) with
  | none =>
    exact h
  | some ex =>
    dsimp only
    by_cases hcd : now - ex.created_at < cfg.resend_cooldown_minutes * 60
    · rw [if_pos hcd]
      exact h
    · rw [if_neg hcd]
      have hc := create_preserves_active_unexpired cfg email purpose db now code
        sent h
      rcases hcr : create_otp_verification cfg db email purpose now code sent
        with ⟨res, db1⟩
      rw [hcr] at hc
      cases res with
      | ok pr =>
        obtain ⟨c, s1⟩ := pr
        cases s1 <;> simpa using hc
      | error e =>
        simpa using hc

theorem cleanup_preserves_active_unexpired (cfg : OTPConfig)
    (email purpose : String) (db : List OTPVerification) (now : Int)
    (h : active_unexpired db email purpose now ≤ 1) :
    active_unexpired (cleanup_expired_otps cfg db now).2
      email purpose now ≤ 1 := by
  unfold cleanup_expired_otps
  by_cases he : cfg.cleanup_enabled = false
  · rw [if_pos he]
    exact h
  · rw [if_neg he]
    dsimp only
    refine le_trans ?_ h
    simp only [active_unexpired]
    rw [List.countP_filter]
    apply List.countP_mono_left
    intro x _ hx
    exact ((Bool.and_eq_true _ _).mp hx).1

theorem invalidate_preserves_active_unexpired (email purpose : String)
    (db : List OTPVerification) (purpose_filter : Option String) (now : Int)
    (h : active_unexpired db email purpose now ≤ 1) :
    active_unexpired (invalidate_user_otps db email purpose_filter).2
      email purpose now ≤ 1 := by
  unfold invalidate_user_otps
  dsimp only
  refine le_trans ?_ h
  simp only [active_unexpired]
  apply countP_map_le_of_imp
  intro x _ hx
  by_cases hq : invalidate_query email purpose_filter x = true
  · rw [if_pos hq] at hx
    exfalso
    simp [create_query] at hx
  · rw [if_neg hq] at hx
    exact hx

theorem find?_append_left_none {α : Type} (p : α → Bool) (l₁ l₂ : List α)
    (h : ∀ x ∈ l₁, ¬ p x = true) : (l₁ ++ l₂).find? p = l₂.find? p := by
  induction l₁ with
  | nil => simp
  | cons x xs ih =>
    rw [List.cons_append, List.find?_cons_of_neg _ (h x (List.mem_cons_self x xs))]
    exact ih (fun y hy => h y (List.mem_cons_of_mem x hy))

theorem double_create_cooldown (cfg : OTPConfig) (email purpose : String)
    (db : List OTPVerification) (t0 t1 : Int) (code1 code2 : String)
    (ok1 ok2 : Bool)
    (hnone : db.find? (create_query email purpose t0) = none)
    (ht : t0 ≤ t1) (hcd : t1 - t0 < cfg.resend_cooldown_minutes * 60)
    (hce : cfg.resend_cooldown_minutes ≤ cfg.otp_expiry_minutes) :
    (create_otp_verification cfg db email purpose t0 code1 ok1).2 =
        db ++ [new_record cfg email purpose t0 code1] ∧
      create_otp_verification cfg
          (db ++ [new_record cfg email purpose t0 code1]) email purpose t1
          code2 ok2 =
        (Except.error (cooldown_message
            (cfg.resend_cooldown_minutes * 60 - (t1 - t0))),
          db ++ [new_record cfg email purpose t0 code1]) ∧
      active_unexpired (db ++ [new_record cfg email purpose t0 code1])
        email purpose t1 = 1 := by
  have hall : ∀ x ∈ db, ¬ create_query email purpose t1 x = true := by
    intro x hx h1
    have h0 := create_query_mono email purpose t0 t1 ht x h1
    have := List.find?_eq_none.mp hnone x hx
    exact this h0
  have hr0 : create_query email purpose t1
      (new_record cfg email purpose t0 code1) = true := by
    simp only [create_query, new_record, decide_eq_true_eq]
    exact ⟨trivial, trivial, trivial, by omega⟩
  have hfind : (db ++ [new_record cfg email purpose t0 code1]).find?
      (create_query email purpose t1) =
      some (new_record cfg email purpose t0 code1) := by
    rw [find?_append_left_none _ db _ hall]
    exact List.find?_cons_of_pos _ hr0
  refine ⟨?_, ?_, ?_⟩
  · simp only [create_otp_verification, hnone]
  · simp only [create_otp_verification, hfind]
    have hcr : (new_record cfg email purpose t0 code1).created_at = t0 := rfl
    rw [hcr]
    rw [if_pos (by omega)]
  · simp only [active_unexpired, List.countP_append, List.countP_cons,
      List.countP_nil, hr0, if_pos]
    have hz : db.countP (create_query email purpose t1) = 0 :=
      List.countP_eq_zero.mpr hall
    omega

/-- **C1** (amended).  Single-active invariant of the OTP engine, with
"active" read as *active and unexpired*: for every `(email, purpose)` pair,
at most one record is both flagged `is_active = true` and unexpired at any
instant, and this is preserved by every state-changing OTP operation
(`create`, `verify`, `resend`, `cleanup`, `invalidateAll`), while `status`
leaves the table unchanged; the bound is monotone in time; and after
`create` twice in succession within the cooldown (starting from a state with
no active unexpired record), the second call fails with the cooldown
rejection, the table is unchanged, and the first record remains the only
active unexpired one.  The amendment (relative to plain `isActive = true`)
is forced by `otp_single_active_violated`: `create` only deactivates an
existing *unexpired* active record — its query filters on
`expires_at > utcnow()` — so a record that expired while still flagged
active is left flagged and a second `is_active = true` row is inserted
beside it. -/
theorem otp_single_active_invariant (cfg : OTPConfig) (email purpose : String) :
    (∀ (db : List OTPVerification) (now : Int) (code : String) (sent : Bool),
      active_unexpired db email purpose now ≤ 1 →
      active_unexpired
        (create_otp_verification cfg db email purpose now code sent).2
        email purpose now ≤ 1) ∧
      (∀ (db : List OTPVerification) (code : String) (now : Int),
        active_unexpired db email purpose now ≤ 1 →
        active_unexpired (verify_otp db email code purpose now).2
          email purpose now ≤ 1) ∧
      (∀ (db : List OTPVerification) (now : Int) (code : String) (sent : Bool),
        active_unexpired db email purpose now ≤ 1 →
        active_unexpired (resend_otp cfg db email purpose now code sent).2
          email purpose now ≤ 1) ∧
      (∀ (db : List OTPVerification) (now : Int),
        active_unexpired db email purpose now ≤ 1 →
        active_unexpired (cleanup_expired_otps cfg db now).2
          email purpose now ≤ 1) ∧
      (∀ (db : List OTPVerification) (purpose_filter : Option String) (now : Int),
        active_unexpired db email purpose now ≤ 1 →
        active_unexpired (invalidate_user_otps db email purpose_filter).2
          email purpose now ≤ 1) ∧
      (∀ (db : List OTPVerification) (now : Int),
        (get_otp_status cfg db email purpose now).2 = db) ∧
      (∀ (db : List OTPVerification) (now now' : Int), now ≤ now' →
        active_unexpired db email purpose now' ≤
          active_unexpired db email purpose now) ∧
      (∀ (db : List OTPVerification) (t0 t1 : Int) (code1 code2 : String)
          (ok1 ok2 : Bool),
        db.find? (create_query email purpose t0) = none → t0 ≤ t1 →
        t1 - t0 < cfg.resend_cooldown_minutes * 60 →
        cfg.resend_cooldown_minutes ≤ cfg.otp_expiry_minutes →
        (create_otp_verification cfg db email purpose t0 code1 ok1).2 =
            db ++ [new_record cfg email purpose t0 code1] ∧
          create_otp_verification cfg
              (db ++ [new_record cfg email purpose t0 code1]) email purpose t1
              code2 ok2 =
            (Except.error (cooldown_message
                (cfg.resend_cooldown_minutes * 60 - (t1 - t0))),
              db ++ [new_record cfg email purpose t0 code1]) ∧
          active_unexpired (db ++ [new_record cfg email purpose t0 code1])
            email purpose t1 = 1) := by
  refine ⟨?_, ?_, ?_, ?_, ?_, ?_, ?_, ?_⟩
  · intro db now code sent h
    exact create_preserves_active_unexpired cfg email purpose db now code sent h
  · intro db code now h
    exact verify_preserves_active_unexpired email purpose db code now h
  · intro db now code sent h
    exact resend_preserves_active_unexpired cfg email purpose db now code sent h
  · intro db now h
    exact cleanup_preserves_active_unexpired cfg email purpose db now h
  · intro db purpose_filter now h
    exact invalidate_preserves_active_unexpired email purpose db purpose_filter
      now h
  · intro db now
    unfold get_otp_status
    cases db.find? (active_query email purpose) <;> rfl
  · intro db now now' h
    exact active_unexpired_mono db email purpose now now' h
  · intro db t0 t1 code1 code2 ok1 ok2 hnone ht hcd hce
    exact double_create_cooldown cfg email purpose db t0 t1 code1 code2 ok1 ok2
      hnone ht hcd hce

/-- **C1** counterexample.  The claim's plain "at most one record has
`isActive = true`" invariant is violated: `create` at time `0` (record
expires at `600`), then `create` again at time `601` — past both the
cooldown and the first record's expiry — finds no *unexpired* active record
(its query filters `expires_at > utcnow()`), deactivates nothing, and
inserts a second `is_active = true` row: afterwards two records are flagged
active for the same `(email, purpose)`. -/
theorem otp_single_active_violated :
    ((create_otp_verification default_config
        (create_otp_verification default_config [] "a@x.com"
          "email_verification" 0 "111111" true).2
        "a@x.com" "email_verification" 601 "222222" true).2.countP
      (fun r => r.is_active)) = 2 := by
  decide

theorem otp_single_active_invariant_witness :
    active_unexpired
      (create_otp_verification default_config [] "a@x.com" "email_verification"
        0 "111111" true).2 "a@x.com" "email_verification" 0 ≤ 1 :=
  (otp_single_active_invariant default_config "a@x.com" "email_verification").1
    [] 0 "111111" true (by decide)

/-- **C2**.  Attempt exhaustion with `maxAttempts = 3`: `verify_otp`
increments the attempts counter before comparing codes; three consecutive
wrong-code verifications of an unexpired active record report invalid with
remaining-attempts counts 2, 1, 0 (the third message is the
maximum-attempts-exceeded one) and the third call deactivates the record; a
fourth call — even with the correct code, at any later time — reports that
no active code exists; conversely a correct code submitted on the final
allowed attempt (attempts already at 2) still verifies successfully. -/
theorem otp_attempt_exhaustion (r : OTPVerification) (wrong : String)
    (t1 t2 t3 t4 t5 : Int)
    (hact : r.is_active = true) (hatt : r.attempts = 0)
    (hmax : r.max_attempts = 3) (hw : r.otp_code ≠ wrong)
    (h1 : t1 ≤ r.expires_at) (h2 : t2 ≤ r.expires_at)
    (h3 : t3 ≤ r.expires_at) (h5 : t5 ≤ r.expires_at) :
    verify_otp [r] r.email wrong r.purpose t1 =
        ((false, "Invalid OTP code. 2 attempts remaining",
          some { r with attempts := 1 }), [{ r with attempts := 1 }]) ∧
      verify_otp [{ r with attempts := 1 }] r.email wrong r.purpose t2 =
        ((false, "Invalid OTP code. 1 attempts remaining",
          some { r with attempts := 2 }), [{ r with attempts := 2 }]) ∧
      verify_otp [{ r with attempts := 2 }] r.email wrong r.purpose t3 =
        ((false, "Invalid OTP code. Maximum attempts exceeded",
          some { r with attempts := 3, is_active := false }),
          [{ r with attempts := 3, is_active := false }]) ∧
      verify_otp [{ r with attempts := 3, is_active := false }] r.email
          r.otp_code r.purpose t4 =
        ((false, "No active OTP found for this email", none),
          [{ r with attempts := 3, is_active := false }]) ∧
      verify_otp [{ r with attempts := 2 }] r.email r.otp_code r.purpose t5 =
        ((true, "OTP verified successfully",
          some { r with attempts := 3, is_verified := true, verified_at := some t5, is_active := false }),
          [{ r with attempts := 3, is_verified := true, verified_at := some t5, is_active := false }]) := by
  have hq : ∀ a : Nat, active_query r.email r.purpose { r with attempts := a } =
      true := by
    intro a
    simp [active_query, hact]
  have hq0 : active_query r.email r.purpose r = true := by
    simp [active_query, hact]
  refine ⟨?_, ?_, ?_, ?_, ?_⟩
  · rw [verify_otp, List.find?_cons_of_pos _ hq0]
    dsimp only
    rw [if_neg (by omega), if_neg (by omega), if_pos hw, if_pos (by omega)]
    rw [updateFirst, if_pos hq0]
    rw [hatt, hmax]
    exact rfl
  · rw [verify_otp, List.find?_cons_of_pos _ (hq 1)]
    dsimp only
    rw [if_neg (by simpa using (by omega : ¬ (r.expires_at < t2))),
      if_neg (by simp only [hmax]; omega), if_pos (by simpa using hw),
      if_pos (by simp only [hmax]; omega)]
    rw [updateFirst, if_pos (hq 1)]
    rw [hmax]
    exact rfl
  · rw [verify_otp, List.find?_cons_of_pos _ (hq 2)]
    dsimp only
    rw [if_neg (by simpa using (by omega : ¬ (r.expires_at < t3))),
      if_neg (by simp only [hmax]; omega), if_pos (by simpa using hw),
      if_neg (by simp only [hmax]; omega)]
    rw [updateFirst, if_pos (hq 2)]
  · rw [verify_otp]
    rw [List.find?_cons_of_neg _ (by simp [active_query])]
    rfl
  · rw [verify_otp, List.find?_cons_of_pos _ (hq 2)]
    dsimp only
    rw [if_neg (by simpa using (by omega : ¬ (r.expires_at < t5))),
      if_neg (by simp only [hmax]; omega), if_neg (by simp)]
    rw [updateFirst, if_pos (hq 2)]

theorem otp_attempt_exhaustion_witness :
    verify_otp [⟨"a@x.com", "email_verification", "123456", 0, 600, 0, 3, true, false, none⟩]
        "a@x.com" "000000" "email_verification" 1 =
      ((false, "Invalid OTP code. 2 attempts remaining",
        some ⟨"a@x.com", "email_verification", "123456", 0, 600, 1, 3, true, false, none⟩),
        [⟨"a@x.com", "email_verification", "123456", 0, 600, 1, 3, true, false, none⟩]) :=
  (otp_attempt_exhaustion
    ⟨"a@x.com", "email_verification", "123456", 0, 600, 0, 3, true, false, none⟩
    "000000" 1 2 3 700 4 rfl rfl rfl (by decide) (by decide) (by decide)
    (by decide) (by decide)).1

/-- **C3** (amended).  Exception propagation at the OTP manager boundary:
`create_otp_verification` does *not* return the cooldown rejection as a
structured result — it raises a `ValueError` (modelled as `Except.error`)
out of the function, with no new record created and no email dispatched (the
table is returned unchanged and the result is independent of the
email-dispatch outcome); `resend_otp`'s `except Exception` handler catches
that escaping error and converts it into the structured result
`(False, "Failed to resend OTP. Please try again")`; the remaining public
operations (`verify`, `status`, `cleanup`, `invalidateAll`) return
structured results for every input by construction of their embeddings. -/
theorem otp_error_propagation (cfg : OTPConfig) :
    (∀ (db : List OTPVerification) (email purpose : String) (now : Int)
        (code : String) (sent : Bool) (ex : OTPVerification),
      db.find? (create_query email purpose now) = some ex →
      now - ex.created_at < cfg.resend_cooldown_minutes * 60 →
      create_otp_verification cfg db email purpose now code sent =
        (Except.error (cooldown_message
          (cfg.resend_cooldown_minutes * 60 - (now - ex.created_at))), db)) ∧
      (∀ (db : List OTPVerification) (email purpose : String) (now : Int)
          (code : String) (sent : Bool) (ex : OTPVerification) (m : String)
          (db1 : List OTPVerification),
        db.find? (active_query email purpose) = some ex →
        cfg.resend_cooldown_minutes * 60 ≤ now - ex.created_at →
        create_otp_verification cfg db email purpose now code sent =
          (Except.error m, db1) →
        resend_otp cfg db email purpose now code sent =
          ((false, "Failed to resend OTP. Please try again"), db1)) := by
  constructor
  · intro db email purpose now code sent ex hf hcd
    simp only [create_otp_verification, hf]
    rw [if_pos hcd]
  · intro db email purpose now code sent ex m db1 hf hcd hcr
    simp only [resend_otp, hf]
    rw [if_neg (by omega), hcr]

/-- **C3** counterexample.  With an active record created at time `0` and a
second `create` call at time `30` (inside the 2-minute cooldown), the call
does not return a structured cooldown result: it raises
`ValueError("Please wait 90 seconds before requesting a new OTP")` out of
the OTP manager (`Except.error` in the embedding), contradicting the claim
that no exception crosses the boundary and that the cooldown rejection is
signalled as a returned result. -/
theorem otp_create_raises_on_cooldown :
    create_otp_verification default_config
        [⟨"a@x.com", "email_verification", "111111", 0, 600, 0, 3, true, false, none⟩]
        "a@x.com" "email_verification" 30 "222222" true =
      (Except.error "Please wait 90 seconds before requesting a new OTP",
        [⟨"a@x.com", "email_verification", "111111", 0, 600, 0, 3, true, false, none⟩]) := by
  rfl

theorem otp_error_propagation_witness :
    create_otp_verification default_config
        [⟨"a@x.com", "email_verification", "111111", 0, 600, 0, 3, true, false, none⟩]
        "a@x.com" "email_verification" 30 "222222" true =
      (Except.error (cooldown_message 90),
        [⟨"a@x.com", "email_verification", "111111", 0, 600, 0, 3, true, false, none⟩]) :=
  (otp_error_propagation default_config).1
    [⟨"a@x.com", "email_verification", "111111", 0, 600, 0, 3, true, false, none⟩]
    "a@x.com" "email_verification" 30 "222222" true
    ⟨"a@x.com", "email_verification", "111111", 0, 600, 0, 3, true, false, none⟩
    rfl (by decide)

/-- **C8**.  When `create_otp_verification` passes the cooldown check it
always returns the generated code together with the email-dispatch success
boolean — for both dispatch outcomes — and the freshly persisted record is
in the table either way: dispatch failure does not roll back or invalidate
the record that was already persisted. -/
theorem create_returns_code_and_dispatch_flag (cfg : OTPConfig)
    (db : List OTPVerification) (email purpose : String) (now : Int)
    (code : String)
    (hcool : ∀ ex, db.find? (create_query email purpose now) = some ex →
      cfg.resend_cooldown_minutes * 60 ≤ now - ex.created_at) :
    ∀ email_sent : Bool,
      (create_otp_verification cfg db email purpose now code email_sent).1 =
          Except.ok (code, email_sent) ∧
        new_record cfg email purpose now code ∈
          (create_otp_verification cfg db email purpose now code email_sent).2 := by
  intro email_sent
  cases hf : db.find? (create_query email purpose now) with
  | none =>
    simp only [create_otp_verification, hf]
    exact ⟨trivial, by simp⟩
  | some ex =>
    have hge := hcool ex hf
    simp only [create_otp_verification, hf]
    rw [if_neg (by omega)]
    exact ⟨rfl, by simp⟩

theorem create_returns_code_and_dispatch_flag_witness :
    (create_otp_verification default_config [] "a@x.com" "email_verification" 0
        "999999" false).1 = Except.ok ("999999", false) ∧
      new_record default_config "a@x.com" "email_verification" 0 "999999" ∈
        (create_otp_verification default_config [] "a@x.com"
          "email_verification" 0 "999999" false).2 :=
  create_returns_code_and_dispatch_flag default_config [] "a@x.com"
    "email_verification" 0 "999999" (by intro ex h; simp [List.find?] at h) false
